import Mathlib

/-!
Verification of the agent-selection, execution-with-fallback and
workflow-state subsystem of the deepagents-runner repository.

The Python sources are shallowly embedded as pure Lean functions:

* `src/deepagents_runner/core/agents.py` — `AgentDefinition`
  (`matches_capabilities`, `score_for_task`), `AgentManager`
  (`_load_agents`, `select_agent`, `select_agents`,
  `select_agents_for_command`, `get_generic_agent`,
  `execute_agent`, `execute_with_fallback`);
* `src/deepagents_runner/core/state.py` — `StateManager`
  (`load_state`, `save_state`, `record_command`);
* `src/deepagents_runner/core/commands.py` — the state updates performed
  by `execute_specify`, `execute_plan` and `execute_clarify`.

External effects are made explicit parameters: the LLM provider becomes a
`behavior` function giving the outcome of each attempt, the filesystem
becomes explicit `Option` arguments (directory listing, persisted JSON
document), and `datetime.now()` becomes an explicit timestamp argument.
Python `datetime` values are represented by their ISO-8601 serialization
(a `String`): `datetime.isoformat` / `datetime.fromisoformat` form an
exact inverse pair at serialization precision, so in the model both are
the identity on that representation.
-/

/-- Substring helper: does `cs` start with `needle` (character lists)? -/
def charsStartWith : List Char → List Char → Bool
  | [], _ => true
  | _ :: _, [] => false
  | a :: as, b :: bs => a == b && charsStartWith as bs

/-- Substring helper: does `haystack` contain `needle` as a contiguous run? -/
def charsContainSub (needle : List Char) : List Char → Bool
  | [] => charsStartWith needle []
  | b :: bs => charsStartWith needle (b :: bs) || charsContainSub needle bs

/-- Python's `needle in haystack` on strings. -/
def strContains (haystack needle : String) : Bool :=
  charsContainSub needle.toList haystack.toList

/-- ASCII lowering of one character. -/
def charLower (c : Char) : Char :=
  if 65 ≤ c.toNat ∧ c.toNat ≤ 90 then Char.ofNat (c.toNat + 32) else c

/-- Python `str.lower()`; the marker strings and every message compared
against them here are ASCII, where this agrees with Python. -/
def strLower (s : String) : String :=
  ⟨s.data.map charLower⟩

/-- `CommandType` from `models/__init__.py`. -/
inductive CommandType where
  | constitution
  | specify
  | clarify
  | plan
  | tasks
  | implement
  | analyze
  | checklist
deriving DecidableEq, Repr

/-- The `.value` string of a `CommandType` member. -/
def CommandType.value : CommandType → String
  | .constitution => "constitution"
  | .specify => "specify"
  | .clarify => "clarify"
  | .plan => "plan"
  | .tasks => "tasks"
  | .implement => "implement"
  | .analyze => "analyze"
  | .checklist => "checklist"

/-- Python `CommandType(s)`: `some` member on a valid value, else `none`
(the constructor raises `ValueError`). -/
def commandTypeOfValue (s : String) : Option CommandType :=
  if s = "constitution" then some .constitution
  else if s = "specify" then some .specify
  else if s = "clarify" then some .clarify
  else if s = "plan" then some .plan
  else if s = "tasks" then some .tasks
  else if s = "implement" then some .implement
  else if s = "analyze" then some .analyze
  else if s = "checklist" then some .checklist
  else none

/-- `WorkflowPhase` from `models/__init__.py`. -/
inductive WorkflowPhase where
  | draft
  | constitution
  | specify
  | clarify
  | plan
  | tasks
  | implement
deriving DecidableEq, Repr

/-- The `.value` string of a `WorkflowPhase` member. -/
def WorkflowPhase.value : WorkflowPhase → String
  | .draft => "draft"
  | .constitution => "constitution"
  | .specify => "specify"
  | .clarify => "clarify"
  | .plan => "plan"
  | .tasks => "tasks"
  | .implement => "implement"

/-- Python `WorkflowPhase(s)`. -/
def workflowPhaseOfValue (s : String) : Option WorkflowPhase :=
  if s = "draft" then some .draft
  else if s = "constitution" then some .constitution
  else if s = "specify" then some .specify
  else if s = "clarify" then some .clarify
  else if s = "plan" then some .plan
  else if s = "tasks" then some .tasks
  else if s = "implement" then some .implement
  else none

/-- `AgentDefinition` from `core/agents.py` (the `file_path` is dropped:
it plays no role in selection or execution). -/
structure AgentDefinition where
  name : String
  role : String
  specialization : Option String
  capabilities : List String
  priority : Int
  content : String
  enabled : Bool
deriving DecidableEq, Repr

/-- `AgentDefinition.matches_capabilities`: every required capability is
among the agent's capabilities. -/
def matchesCapabilities (a : AgentDefinition) (required : List String) : Bool :=
  required.all (fun cap => a.capabilities.contains cap)

/-- Python `set(xs) == set(ys)` on string lists. -/
def listSetEq (xs ys : List String) : Bool :=
  xs.all (fun x => ys.contains x) && ys.all (fun y => xs.contains y)

/-- `AgentDefinition.score_for_task`: 0 when the agent does not match,
otherwise the priority, plus 5 when the capability sets are equal. -/
def scoreForTask (a : AgentDefinition) (required : List String) : Int :=
  if !(matchesCapabilities a required) then 0
  else
    let score := a.priority
    if listSetEq required a.capabilities then score + 5 else score

/-- `AgentManager.COMMAND_CAPABILITIES` lookup (total over the closed
enumeration, mirroring the dict literal in `core/agents.py`). -/
def commandCapabilities : CommandType → List String
  | .specify => []
  | .clarify => []
  | .plan => ["architecture_design", "component_design"]
  | .tasks => ["project_management", "task_breakdown"]
  | .implement => ["backend_implementation", "frontend_implementation"]
  | .analyze => ["code_quality", "code_review"]
  | .checklist => ["quality_assurance", "testing"]
  | .constitution => ["project_management"]

/-- `AgentManager.get_generic_agent`: first loaded agent whose role is
`"generic"`; the `enabled` flag is not consulted. -/
def getGenericAgent (catalog : List AgentDefinition) : Option AgentDefinition :=
  catalog.find? (fun a => a.role == "generic")

/-- The descending `(score, priority)` ordering used by
`candidates.sort(key=lambda x: (x[1], x[0].priority), reverse=True)`. -/
def scoreKeyGe (x y : AgentDefinition × Int) : Bool :=
  if y.2 < x.2 then true
  else if x.2 = y.2 then decide (y.1.priority ≤ x.1.priority)
  else false

/-- `AgentManager.select_agent`: score all agents (disabled included),
keep positive scores, sort descending by `(score, priority)`, return the
head. -/
def selectAgent (catalog : List AgentDefinition) (required : List String) :
    Option AgentDefinition :=
  let candidates := catalog.map (fun a => (a, scoreForTask a required))
  let candidates := candidates.filter (fun x => 0 < x.2)
  match candidates.mergeSort scoreKeyGe with
  | [] => none
  | x :: _ => some x.1

/-- `AgentManager.select_agents`: same scoring restricted to enabled
agents, truncated to `maxAgents` (the call sites use the default 3). -/
def selectAgents (catalog : List AgentDefinition) (required : List String)
    (maxAgents : Nat) : List AgentDefinition :=
  let candidates :=
    (catalog.filter (fun a => a.enabled)).map (fun a => (a, scoreForTask a required))
  let candidates := candidates.filter (fun x => 0 < x.2)
  if candidates = [] then []
  else ((candidates.mergeSort scoreKeyGe).take maxAgents).map (fun x => x.1)

/-- `AgentManager.select_agents_for_command`: empty required set goes
straight to the generic agent; otherwise `select_agents`, falling back to
the generic agent when that is empty. -/
def selectAgentsForCommand (catalog : List AgentDefinition) (cmd : CommandType) :
    List AgentDefinition :=
  let requiredCaps := commandCapabilities cmd
  if requiredCaps = [] then (getGenericAgent catalog).toList
  else
    let agents := selectAgents catalog requiredCaps 3
    if agents = [] then (getGenericAgent catalog).toList else agents

/-- Raw frontmatter metadata of an on-disk agent file; each field is
`none` when the key is absent. -/
structure AgentFileMeta where
  name : Option String
  role : Option String
  specialization : Option String
  capabilities : Option (List String)
  priority : Option Int
deriving DecidableEq, Repr

/-- An on-disk agent file: its stem and the result of frontmatter
parsing (`none` when the file is malformed and parsing raises). -/
structure AgentFile where
  stem : String
  parsed : Option (AgentFileMeta × String)
deriving DecidableEq, Repr

/-- `AgentManager._load_agent` plus `AgentDefinition.__init__` defaults:
`name` defaults to the file stem, `role` to `"generic"`, `capabilities`
to `[]`, `priority` to `1`; a parse failure raises
`AgentDefinitionError`. -/
def loadAgent (f : AgentFile) : Except String AgentDefinition :=
  match f.parsed with
  | none => Except.error ("Failed to parse " ++ f.stem)
  | some (m, content) =>
      Except.ok
        { name := m.name.getD f.stem
          role := m.role.getD "generic"
          specialization := m.specialization
          capabilities := m.capabilities.getD []
          priority := m.priority.getD 1
          content := content
          enabled := true }

/-- The loop body of `AgentManager._load_agents`: append each agent that
loads, skip (log only) each file whose load raises. -/
def loadLoop : List AgentFile → List AgentDefinition
  | [] => []
  | f :: rest =>
    match loadAgent f with
    | Except.ok a => a :: loadLoop rest
    | Except.error _ => loadLoop rest

/-- `AgentManager._load_agents`: `none` models a missing agents
directory (`agents_dir.exists()` false), in which case the method raises
`AgentDefinitionError`; otherwise every file of the glob is tried
independently. -/
def loadAgentsFromDir (dir : Option (List AgentFile)) :
    Except String (List AgentDefinition) :=
  match dir with
  | none => Except.error "Agents directory not found"
  | some files => Except.ok (loadLoop files)

/-- Outcome of one provider attempt for one agent: the generated text,
or the text of the exception the attempt raised. `Nat` is the attempt
index within the tenacity retry loop (deterministic per agent+attempt;
the provider is the external collaborator of spec §6). -/
def Behavior : Type :=
  AgentDefinition → Nat → Except String String

/-- `AgentManager.execute_agent` under its tenacity decorator
(`stop_after_attempt(3)`): up to three attempts; any raising attempt is
retried; after the third failure the surviving error is the
`AgentExecutionError` of the last attempt (the `RetryError.__cause__`
that `execute_with_fallback` extracts as `error_details`). -/
def executeAgent (behavior : Behavior) (a : AgentDefinition) : Except String String :=
  match behavior a 0 with
  | Except.ok r => Except.ok r
  | Except.error _ =>
    match behavior a 1 with
    | Except.ok r => Except.ok r
    | Except.error _ =>
      match behavior a 2 with
      | Except.ok r => Except.ok r
      | Except.error e =>
          Except.error ("Agent " ++ a.name ++ " execution failed: " ++ e)

/-- Did `execute_agent` succeed for this agent? -/
def agentSucceeds (behavior : Behavior) (a : AgentDefinition) : Bool :=
  match executeAgent behavior a with
  | Except.ok _ => true
  | Except.error _ => false

/-- The candidate loop of `execute_with_fallback`: try each agent in
order, keeping the latest `error_details` (`none` before any failure);
return the first success paired with its agent, else the final
`error_details`. -/
def tryAgents (behavior : Behavior) :
    List AgentDefinition → Option String → Except (Option String) (AgentDefinition × String)
  | [], errDetails => Except.error errDetails
  | a :: rest, errDetails =>
    match executeAgent behavior a with
    | Except.ok r => Except.ok (a, r)
    | Except.error m =>
        let _ := errDetails
        tryAgents behavior rest (some m)

/-- Auth marker test of `execute_with_fallback`:
`"authentication" in error_msg.lower() or "api key" in error_msg.lower()
or "401" in error_msg`. -/
def hasAuthMarker (errorMsg : String) : Bool :=
  strContains (strLower errorMsg) "authentication"
    || strContains (strLower errorMsg) "api key"
    || strContains errorMsg "401"

/-- Rate-limit marker test of `execute_with_fallback`:
`"rate limit" in error_msg.lower() or "429" in error_msg`. -/
def hasRateLimitMarker (errorMsg : String) : Bool :=
  strContains (strLower errorMsg) "rate limit" || strContains errorMsg "429"

/-- The authentication-failure message raised by
`execute_with_fallback`. -/
def authFailureMessage (errorMsg : String) : String :=
  "Authentication failed. Please check your API key is set correctly:\n"
    ++ "  export ANTHROPIC_API_KEY=your-key-here\n"
    ++ "  export OPENAI_API_KEY=your-key-here\n"
    ++ "Original error: " ++ errorMsg

/-- The rate-limit message raised by `execute_with_fallback`. -/
def rateLimitFailureMessage (errorMsg : String) : String :=
  "Rate limit exceeded. Please wait a moment and try again.\n"
    ++ "Original error: " ++ errorMsg

/-- The catch-all message raised by `execute_with_fallback`. -/
def allFailedMessage (errorMsg : String) : String :=
  "All agents failed to execute.\nError: " ++ errorMsg

/-- The classification chain at the bottom of `execute_with_fallback`:
auth markers first, then rate-limit markers, else the catch-all
message. -/
def raisedMessage (errorMsg : String) : String :=
  if hasAuthMarker errorMsg then authFailureMessage errorMsg
  else if hasRateLimitMarker errorMsg then rateLimitFailureMessage errorMsg
  else allFailedMessage errorMsg

/-- `execute_with_fallback` up to (not including) classification: the
candidate loop, then the generic agent when it exists and was not among
the candidates; on total failure the terminal
`error_msg = error_details or str(last_error)` (the string `"None"` when
nothing was ever tried, since `str(None) == "None"`). -/
def executeWithFallbackCore (catalog agents : List AgentDefinition)
    (behavior : Behavior) : Except String (AgentDefinition × String) :=
  match tryAgents behavior agents none with
  | Except.ok res => Except.ok res
  | Except.error errDetails =>
    match getGenericAgent catalog with
    | some g =>
      if g ∈ agents then Except.error (errDetails.getD "None")
      else
        match executeAgent behavior g with
        | Except.ok r => Except.ok (g, r)
        | Except.error m => Except.error m
    | none => Except.error (errDetails.getD "None")

/-- `AgentManager.execute_with_fallback`: `Except.ok (agent, text)` is
the returned pair; `Except.error msg` is the message of the raised
`AgentExecutionError` after classification. -/
def executeWithFallback (catalog agents : List AgentDefinition)
    (behavior : Behavior) : Except String (AgentDefinition × String) :=
  match executeWithFallbackCore catalog agents behavior with
  | Except.ok res => Except.ok res
  | Except.error m => Except.error (raisedMessage m)

/-- Python `datetime` values, represented by their ISO-8601
serialization; `isoformat`/`fromisoformat` are exact inverses at this
precision, so both are the identity here. -/
abbrev Timestamp : Type := String

/-- `CommandRecord` from `models/workflow.py`. -/
structure CommandRecord where
  command : CommandType
  timestamp : Timestamp
deriving DecidableEq

/-- `WorkflowState` from `models/workflow.py`; `context_data` is the
opaque extension bag, modelled as a string-keyed association list, and
the unserialized `state_file` path is dropped. -/
structure WorkflowState where
  feature_id : String
  current_phase : WorkflowPhase
  completed_commands : List CommandRecord
  suggested_next : Option CommandType
  context_data : List (String × String)
  last_checkpoint : Timestamp
  last_updated : Timestamp
deriving DecidableEq

/-- One entry of the serialized `completed_commands` array:
`(command value string, timestamp ISO string)`. -/
abbrev CommandRecordDoc : Type := String × String

/-- The JSON document written by `StateManager.save_state` (its exact
key set, with enum members replaced by their value strings). -/
structure StateDoc where
  feature_id : String
  current_phase : String
  completed_commands : List CommandRecordDoc
  suggested_next : Option String
  context_data : List (String × String)
  last_checkpoint : String
  last_updated : String

/-- The dict built inside `StateManager.save_state` for a given state. -/
def stateToDoc (s : WorkflowState) : StateDoc :=
  { feature_id := s.feature_id
    current_phase := s.current_phase.value
    completed_commands :=
      s.completed_commands.map (fun r => (r.command.value, r.timestamp))
    suggested_next := s.suggested_next.map (fun c => c.value)
    context_data := s.context_data
    last_checkpoint := s.last_checkpoint
    last_updated := s.last_updated }

/-- `StateManager.save_state`: stamp `last_updated = now`, then
serialize the whole aggregate (the write itself is `write_json`,
temp-file-then-rename). Returns the mutated state and the document. -/
def saveState (now : Timestamp) (s : WorkflowState) : WorkflowState × StateDoc :=
  let s1 := { s with last_updated := now }
  (s1, stateToDoc s1)

/-- Parsing of one record inside `StateManager.load_state`:
`CommandType(rec['command'])` raises on an unknown value. -/
def parseRecord (r : CommandRecordDoc) : Except String CommandRecord :=
  match commandTypeOfValue r.1 with
  | some c => Except.ok { command := c, timestamp := r.2 }
  | none => Except.error "Failed to load state"

/-- `StateManager.load_state`: a missing state file (`dir = none`)
yields a fresh `draft` state with empty history (pydantic default
factories stamp both timestamps with `now`); an existing document is
parsed field by field, any parse failure raising `StateLoadError`.
`suggested_next` is parsed only when truthy (non-`None`, non-empty). -/
def loadState (featureId : String) (now : Timestamp) (doc : Option StateDoc) :
    Except String WorkflowState :=
  match doc with
  | none =>
      Except.ok
        { feature_id := featureId
          current_phase := WorkflowPhase.draft
          completed_commands := []
          suggested_next := none
          context_data := []
          last_checkpoint := now
          last_updated := now }
  | some data => do
      let cmds ← data.completed_commands.mapM parseRecord
      let phase ←
        match workflowPhaseOfValue data.current_phase with
        | some p => Except.ok p
        | none => Except.error "Failed to load state"
      let sugg ←
        match data.suggested_next with
        | none => Except.ok none
        | some sv =>
          if sv = "" then Except.ok none
          else
            match commandTypeOfValue sv with
            | some c => Except.ok (some c)
            | none => Except.error "Failed to load state"
      Except.ok
        { feature_id := data.feature_id
          current_phase := phase
          completed_commands := cmds
          suggested_next := sugg
          context_data := data.context_data
          last_checkpoint := data.last_checkpoint
          last_updated := data.last_updated }

/-- `StateManager.record_command`: append a `CommandRecord` stamped
`tRec`, then `save_state` (which stamps `last_updated` with the later
instant `tSave`). -/
def recordCommand (tRec tSave : Timestamp) (s : WorkflowState) (c : CommandType) :
    WorkflowState × StateDoc :=
  let s1 :=
    { s with completed_commands :=
        s.completed_commands ++ [{ command := c, timestamp := tRec }] }
  saveState tSave s1

/-- The state updates of `CommandExecutor.execute_specify`: set phase
`SPECIFY`, record the command (which persists), then set
`suggested_next = PLAN`. -/
def applySpecify (tRec tSave : Timestamp) (s : WorkflowState) : WorkflowState :=
  let s1 := { s with current_phase := WorkflowPhase.specify }
  let s2 := (recordCommand tRec tSave s1 CommandType.specify).1
  { s2 with suggested_next := some CommandType.plan }

/-- The state updates of `CommandExecutor.execute_plan`: set phase
`PLAN`, record the command, then set `suggested_next = TASKS`. -/
def applyPlan (tRec tSave : Timestamp) (s : WorkflowState) : WorkflowState :=
  let s1 := { s with current_phase := WorkflowPhase.plan }
  let s2 := (recordCommand tRec tSave s1 CommandType.plan).1
  { s2 with suggested_next := some CommandType.tasks }

/-- The state updates of `CommandExecutor.execute_clarify`: only
`record_command`; phase and `suggested_next` are untouched. -/
def applyClarify (tRec tSave : Timestamp) (s : WorkflowState) : WorkflowState :=
  (recordCommand tRec tSave s CommandType.clarify).1

/-- Concrete specialist agent used in concrete instantiations. -/
def agArchie : AgentDefinition :=
  { name := "archie"
    role := "specialist"
    specialization := some "architecture"
    capabilities := ["architecture_design", "component_design"]
    priority := 2
    content := "You are archie."
    enabled := true }

/-- Concrete generic fallback agent used in concrete instantiations. -/
def agGeneric : AgentDefinition :=
  { name := "generic"
    role := "generic"
    specialization := none
    capabilities := []
    priority := 1
    content := "You are a generic agent."
    enabled := true }

/-- Concrete always-failing specialist used in concrete instantiations. -/
def agFlaky : AgentDefinition :=
  { name := "flaky"
    role := "specialist"
    specialization := none
    capabilities := ["testing"]
    priority := 3
    content := "flaky"
    enabled := true }

/-- An agent with priority 0 and one capability: it matches the empty
requirement set yet scores 0 there. -/
def zeroPriorityAgent : AgentDefinition :=
  { name := "zero"
    role := "specialist"
    specialization := none
    capabilities := ["x"]
    priority := 0
    content := "zero"
    enabled := true }

/-- Provider model succeeding exactly for the agent named `goodName`. -/
def behaviorOkFor (goodName : String) : Behavior :=
  fun a _ => if a.name = goodName then Except.ok ("out-" ++ a.name) else Except.error "boom"

/-- Provider model where every attempt of every agent raises. -/
def behaviorFailAll : Behavior :=
  fun _ _ => Except.error "boom"

lemma matchesCapabilities_iff (a : AgentDefinition) (R : List String) :
    matchesCapabilities a R = true ↔ ∀ c ∈ R, c ∈ a.capabilities := by
  simp [matchesCapabilities, List.all_eq_true]

lemma listSetEq_iff (xs ys : List String) :
    listSetEq xs ys = true ↔ ((∀ x ∈ xs, x ∈ ys) ∧ ∀ y ∈ ys, y ∈ xs) := by
  simp [listSetEq, List.all_eq_true]

/-- C2: `score_for_task` is 0 when the agent lacks a required tag,
`priority + 5` when its capability set equals the requirement as a set,
and bare `priority` when it strictly contains the requirement. -/
theorem scoreForTask_cases (a : AgentDefinition) (R : List String) :
    (matchesCapabilities a R = false → scoreForTask a R = 0)
    ∧ ((∀ x, x ∈ a.capabilities ↔ x ∈ R) → scoreForTask a R = a.priority + 5)
    ∧ ((∀ x ∈ R, x ∈ a.capabilities) → (∃ x, x ∈ a.capabilities ∧ x ∉ R) →
        scoreForTask a R = a.priority) := by
  refine ⟨fun h => by simp [scoreForTask, h], fun hset => ?_, fun hsub hstrict => ?_⟩
  · have hm : matchesCapabilities a R = true :=
      (matchesCapabilities_iff a R).mpr (fun c hc => (hset c).mpr hc)
    have hse : listSetEq R a.capabilities = true :=
      (listSetEq_iff R a.capabilities).mpr
        ⟨fun x hx => (hset x).mpr hx, fun y hy => (hset y).mp hy⟩
    simp [scoreForTask, hm, hse]
  · have hm : matchesCapabilities a R = true :=
      (matchesCapabilities_iff a R).mpr hsub
    rcases hstrict with ⟨x, hxc, hxr⟩
    have hse : listSetEq R a.capabilities = false := by
      rcases h : listSetEq R a.capabilities with _ | _
      · rfl
      · exact absurd (((listSetEq_iff R a.capabilities).mp h).2 x hxc) hxr
    simp [scoreForTask, hm, hse]

/-- C2 witness: concrete evaluations through `scoreForTask_cases` at
`agArchie` (priority 2, capabilities
`["architecture_design", "component_design"]`). -/
theorem scoreForTask_cases_witness :
    scoreForTask agArchie ["testing"] = 0
    ∧ scoreForTask agArchie ["architecture_design", "component_design"] = agArchie.priority + 5
    ∧ scoreForTask agArchie ["architecture_design"] = agArchie.priority :=
  ⟨(scoreForTask_cases agArchie ["testing"]).1 (by decide),
   (scoreForTask_cases agArchie ["architecture_design", "component_design"]).2.1
     (fun x => Iff.rfl),
   (scoreForTask_cases agArchie ["architecture_design"]).2.2 (by decide)
     ⟨"component_design", by decide, by decide⟩⟩

/-- C3 counterexample: `zeroPriorityAgent` (priority 0, capabilities
`["x"]`) matches the empty requirement set but scores 0 there, so
`score(A,R) > 0 ⇔ matches(A,R)` fails as stated. -/
theorem score_pos_iff_matches_cex :
    ¬ ((0 < scoreForTask zeroPriorityAgent [])
        ↔ matchesCapabilities zeroPriorityAgent [] = true) := by
  decide

lemma score_pos_of_mem_candidates {R : List String} {base : List AgentDefinition}
    {x : AgentDefinition × Int}
    (h : x ∈ (base.map (fun b => (b, scoreForTask b R))).filter (fun y => 0 < y.2)) :
    0 < scoreForTask x.1 R := by
  rcases List.mem_filter.mp h with ⟨hmem, hpos⟩
  rcases List.mem_map.mp hmem with ⟨b, _, rfl⟩
  simpa using hpos

lemma score_pos_of_selectAgent {catalog : List AgentDefinition} {R : List String}
    {a : AgentDefinition} (h : selectAgent catalog R = some a) :
    0 < scoreForTask a R := by
  simp only [selectAgent] at h
  rcases hms : ((catalog.map (fun b => (b, scoreForTask b R))).filter
      (fun y => 0 < y.2)).mergeSort scoreKeyGe with _ | ⟨x, xs⟩
  · rw [hms] at h
    exact absurd h (by simp)
  · rw [hms] at h
    have hxa : x.1 = a := by
      simpa using h
    have hx : x ∈ ((catalog.map (fun b => (b, scoreForTask b R))).filter
        (fun y => 0 < y.2)).mergeSort scoreKeyGe := by
      rw [hms]; exact List.mem_cons_self x xs
    have := score_pos_of_mem_candidates (List.mem_mergeSort.mp hx)
    rwa [hxa] at this

lemma score_pos_of_mem_selectAgents {catalog : List AgentDefinition} {R : List String}
    {n : Nat} {a : AgentDefinition} (h : a ∈ selectAgents catalog R n) :
    0 < scoreForTask a R := by
  unfold selectAgents at h
  by_cases hc : ((catalog.filter (fun b => b.enabled)).map
      (fun b => (b, scoreForTask b R))).filter (fun y => 0 < y.2) = []
  · rw [if_pos hc] at h
    exact absurd h (by simp)
  · rw [if_neg hc] at h
    rcases List.mem_map.mp h with ⟨x, hxmem, rfl⟩
    have hx := List.mem_mergeSort.mp (List.take_subset _ _ hxmem)
    exact score_pos_of_mem_candidates hx

/-- C3 amended: `score > 0` always implies `matches`; the converse
holds for every agent of positive priority (but can fail at priority
≤ 0, see the counterexample); and a non-matching agent is excluded from
both ranked candidate lists (`select_agent` and `select_agents`). -/
theorem score_pos_iff_matches_amended (a : AgentDefinition) (R : List String)
    (catalog : List AgentDefinition) (n : Nat) :
    (0 < scoreForTask a R → matchesCapabilities a R = true)
    ∧ (1 ≤ a.priority → matchesCapabilities a R = true → 0 < scoreForTask a R)
    ∧ (matchesCapabilities a R = false →
        selectAgent catalog R ≠ some a ∧ a ∉ selectAgents catalog R n) := by
  refine ⟨fun hpos => ?_, fun hp hm => ?_, fun hm => ⟨fun hsel => ?_, fun hmem => ?_⟩⟩
  · rcases h : matchesCapabilities a R with _ | _
    · rw [scoreForTask, h] at hpos
      exact absurd hpos (by simp)
    · rfl
  · rw [scoreForTask, hm]
    rcases h : listSetEq R a.capabilities with _ | _ <;> simp <;> omega
  · have := score_pos_of_selectAgent hsel
    rw [(scoreForTask_cases a R).1 hm] at this
    exact absurd this (by simp)
  · have := score_pos_of_mem_selectAgents hmem
    rw [(scoreForTask_cases a R).1 hm] at this
    exact absurd this (by simp)

/-- C3 witness: concrete instantiations of each conjunct of
`score_pos_iff_matches_amended` at `agArchie` and `agFlaky`. -/
theorem score_pos_iff_matches_amended_witness :
    matchesCapabilities agArchie ["architecture_design"] = true
    ∧ 0 < scoreForTask agArchie ["architecture_design"]
    ∧ selectAgent [agFlaky] ["architecture_design"] ≠ some agFlaky
    ∧ agFlaky ∉ selectAgents [agFlaky] ["architecture_design"] 3 :=
  ⟨(score_pos_iff_matches_amended agArchie ["architecture_design"] [agFlaky] 3).1
     (by decide),
   (score_pos_iff_matches_amended agArchie ["architecture_design"] [agFlaky] 3).2.1
     (by decide) (by decide),
   ((score_pos_iff_matches_amended agFlaky ["architecture_design"] [agFlaky] 3).2.2
     (by decide)).1,
   ((score_pos_iff_matches_amended agFlaky ["architecture_design"] [agFlaky] 3).2.2
     (by decide)).2⟩

/-- C4: `specify` and `clarify` have the empty static requirement set,
and for them `select_agents_for_command` returns exactly the one-element
list of the generic agent when one is loaded (the `enabled` flag is
never consulted on this path) and the empty list otherwise, for every
catalog. -/
theorem selectAgentsForCommand_empty_caps (catalog : List AgentDefinition) :
    commandCapabilities CommandType.specify = []
    ∧ commandCapabilities CommandType.clarify = []
    ∧ selectAgentsForCommand catalog CommandType.specify = (getGenericAgent catalog).toList
    ∧ selectAgentsForCommand catalog CommandType.clarify = (getGenericAgent catalog).toList :=
  ⟨rfl, rfl, rfl, rfl⟩

lemma commandTypeOfValue_value (c : CommandType) :
    commandTypeOfValue c.value = some c := by
  cases c <;> rfl

lemma workflowPhaseOfValue_value (p : WorkflowPhase) :
    workflowPhaseOfValue p.value = some p := by
  cases p <;> rfl

lemma commandTypeValue_ne_empty (c : CommandType) : ¬ c.value = "" := by
  cases c <;> decide

lemma except_bind_ok {ε α β : Type} (a : α) (f : α → Except ε β) :
    (Except.ok a >>= f : Except ε β) = f a := rfl

lemma mapM_loop_parseRecord (l : List CommandRecord) (acc : List CommandRecord) :
    List.mapM.loop parseRecord
        (l.map (fun r => ((r.command.value, r.timestamp) : CommandRecordDoc))) acc
      = Except.ok (acc.reverse ++ l) := by
  induction l generalizing acc with
  | nil =>
      show Except.ok acc.reverse = _
      simp
  | cons r rest ih =>
      simp [List.mapM.loop, parseRecord, commandTypeOfValue_value, except_bind_ok, ih]

lemma mapM_parseRecord_roundtrip (l : List CommandRecord) :
    (l.map (fun r => ((r.command.value, r.timestamp) : CommandRecordDoc))).mapM parseRecord
      = Except.ok l := by
  simpa [List.mapM] using mapM_loop_parseRecord l []

/-- C7: saving a state and loading the resulting document succeeds and
restores the feature id, current phase, completed-command history,
suggested next command, context data and checkpoint timestamp exactly
(timestamps are compared at ISO-8601 serialization precision; nothing
is re-derived on load — only `last_updated`, which `save_state` itself
re-stamps before serializing, differs from the pre-save state). -/
theorem save_then_load_roundtrip (s : WorkflowState) (now now2 : Timestamp)
    (fid : String) :
    ∃ r, loadState fid now2 (some (saveState now s).2) = Except.ok r
      ∧ r.feature_id = s.feature_id
      ∧ r.current_phase = s.current_phase
      ∧ r.completed_commands = s.completed_commands
      ∧ r.suggested_next = s.suggested_next
      ∧ r.context_data = s.context_data
      ∧ r.last_checkpoint = s.last_checkpoint := by
  refine ⟨{ s with last_updated := now }, ?_, rfl, rfl, rfl, rfl, rfl, rfl⟩
  rcases s with ⟨fid0, phase, cmds, sugg, ctx, chk, upd⟩
  rcases sugg with _ | c <;>
    simp [loadState, saveState, stateToDoc, mapM_parseRecord_roundtrip,
      mapM_loop_parseRecord, workflowPhaseOfValue_value, commandTypeOfValue_value,
      commandTypeValue_ne_empty, except_bind_ok]

/-- C8: `record_command` is append-only — the history grows by exactly
one record, the prior entries survive unchanged in their original
relative order (they are the strict prefix of the new history), and the
appended entry is the new command stamped with the recording time. -/
theorem recordCommand_append_only (tRec tSave : Timestamp) (s : WorkflowState)
    (c : CommandType) :
    ((recordCommand tRec tSave s c).1).completed_commands.length
        = s.completed_commands.length + 1
    ∧ ((recordCommand tRec tSave s c).1).completed_commands.take
          s.completed_commands.length
        = s.completed_commands
    ∧ ((recordCommand tRec tSave s c).1).completed_commands
        = s.completed_commands ++ [{ command := c, timestamp := tRec }] := by
  refine ⟨?_, ?_, rfl⟩
  · simp [recordCommand, saveState]
  · simp [recordCommand, saveState, List.take_left]

/-- C9: the concrete workflow for feature `001-login`: a fresh load is
in phase `draft` with empty history and no suggestion; `specify`
advances the phase to `specify`, history length 1, suggestion `plan`;
`plan` advances to phase `plan`, history length 2, suggestion `tasks`;
and `clarify`, from any state, leaves phase and suggestion unchanged
while growing the history by one. -/
theorem workflow_progression :
    ∃ s0, loadState "001-login" "2024-01-01T00:00:00" none = Except.ok s0
      ∧ s0.current_phase = WorkflowPhase.draft
      ∧ s0.completed_commands = []
      ∧ s0.suggested_next = none
      ∧ (applySpecify "t1" "t2" s0).current_phase = WorkflowPhase.specify
      ∧ (applySpecify "t1" "t2" s0).completed_commands.length = 1
      ∧ (applySpecify "t1" "t2" s0).suggested_next = some CommandType.plan
      ∧ (applyPlan "t3" "t4" (applySpecify "t1" "t2" s0)).current_phase
          = WorkflowPhase.plan
      ∧ (applyPlan "t3" "t4" (applySpecify "t1" "t2" s0)).completed_commands.length = 2
      ∧ (applyPlan "t3" "t4" (applySpecify "t1" "t2" s0)).suggested_next
          = some CommandType.tasks
      ∧ ∀ (s : WorkflowState) (tR tS : Timestamp),
          (applyClarify tR tS s).current_phase = s.current_phase
          ∧ (applyClarify tR tS s).suggested_next = s.suggested_next
          ∧ (applyClarify tR tS s).completed_commands.length
              = s.completed_commands.length + 1 := by
  refine ⟨_, rfl, rfl, rfl, rfl, rfl, rfl, rfl, rfl, rfl, rfl, fun s tR tS => ?_⟩
  refine ⟨rfl, rfl, ?_⟩
  simp [applyClarify, recordCommand, saveState]

lemma executeAgent_ok_of_succeeds {behavior : Behavior} {a : AgentDefinition}
    (h : agentSucceeds behavior a = true) :
    ∃ t, executeAgent behavior a = Except.ok t := by
  unfold agentSucceeds at h
  rcases he : executeAgent behavior a with m | t
  · rw [he] at h
    exact absurd h (by simp)
  · exact ⟨t, rfl⟩

lemma executeAgent_error_of_fails {behavior : Behavior} {a : AgentDefinition}
    (h : agentSucceeds behavior a = false) :
    ∃ m, executeAgent behavior a = Except.error m := by
  unfold agentSucceeds at h
  rcases he : executeAgent behavior a with m | t
  · exact ⟨m, rfl⟩
  · rw [he] at h
    exact absurd h (by simp)

lemma tryAgents_append_ok (behavior : Behavior) (pre rest : List AgentDefinition)
    (a : AgentDefinition) (t : String) (errD : Option String)
    (hpre : ∀ b ∈ pre, agentSucceeds behavior b = false)
    (ha : executeAgent behavior a = Except.ok t) :
    tryAgents behavior (pre ++ a :: rest) errD = Except.ok (a, t) := by
  induction pre generalizing errD with
  | nil => simp [tryAgents, ha]
  | cons b bs ih =>
      rcases executeAgent_error_of_fails (hpre b (by simp)) with ⟨m, hm⟩
      rw [List.cons_append, tryAgents, hm]
      exact ih (some m) (fun x hx => hpre x (by simp [hx]))

lemma tryAgents_all_fail (behavior : Behavior) (agents : List AgentDefinition)
    (errD : Option String)
    (h : ∀ b ∈ agents, agentSucceeds behavior b = false) :
    ∃ e, tryAgents behavior agents errD = Except.error e := by
  induction agents generalizing errD with
  | nil => exact ⟨errD, rfl⟩
  | cons b bs ih =>
      rcases executeAgent_error_of_fails (h b (by simp)) with ⟨m, hm⟩
      rw [tryAgents, hm]
      exact ih (some m) (fun x hx => h x (by simp [hx]))

/-- C1: `execute_with_fallback` walks the candidate list strictly in
order, returning the first successful agent paired with its generated
text, and when every explicit candidate fails (or the list is empty)
while the catalog holds a generic agent not among the candidates, that
generic agent is tried and, on success, is the returned agent. -/
theorem executeWithFallback_order_and_generic (catalog pre rest agents : List AgentDefinition)
    (a g : AgentDefinition) (behavior : Behavior) (t : String) :
    ((∀ b ∈ pre, agentSucceeds behavior b = false) →
      executeAgent behavior a = Except.ok t →
      executeWithFallback catalog (pre ++ a :: rest) behavior = Except.ok (a, t))
    ∧ ((∀ b ∈ agents, agentSucceeds behavior b = false) →
      getGenericAgent catalog = some g →
      g ∉ agents →
      executeAgent behavior g = Except.ok t →
      executeWithFallback catalog agents behavior = Except.ok (g, t)) := by
  constructor
  · intro hpre ha
    rw [executeWithFallback, executeWithFallbackCore,
      tryAgents_append_ok behavior pre rest a t none hpre ha]
  · intro hfail hg hnotmem hok
    rcases tryAgents_all_fail behavior agents none hfail with ⟨e, he⟩
    simp [executeWithFallback, executeWithFallbackCore, he, hg, hnotmem, hok]

/-- C1 witness: with candidates `[flaky, archie]` where only `archie`
succeeds the result agent is `archie`; with the single failing candidate
`[flaky]` and a succeeding generic agent in the catalog the result agent
is the generic one. Both facts come from
`executeWithFallback_order_and_generic`. -/
theorem executeWithFallback_order_and_generic_witness :
    executeWithFallback [agGeneric] [agFlaky, agArchie] (behaviorOkFor "archie")
        = Except.ok (agArchie, "out-archie")
    ∧ executeWithFallback [agGeneric] [agFlaky] (behaviorOkFor "generic")
        = Except.ok (agGeneric, "out-generic") :=
  ⟨(executeWithFallback_order_and_generic [agGeneric] [agFlaky] [] [agFlaky]
      agArchie agGeneric (behaviorOkFor "archie") "out-archie").1
      (by decide) rfl,
   (executeWithFallback_order_and_generic [agGeneric] [] [] [agFlaky]
      agArchie agGeneric (behaviorOkFor "generic") "out-generic").2
      (by decide) rfl (by decide) rfl⟩

/-- C5: when every candidate and the generic fallback fail, the raised
`AgentExecutionError` message is obtained by classifying the terminal
error text: an authentication marker (`"authentication"`, `"api key"`
case-insensitively, or `"401"`) yields the authentication message, a
rate-limit marker (`"rate limit"` case-insensitively or `"429"`, checked
after the auth markers) yields the rate-limit message, and any other
text yields the catch-all message that embeds the underlying text. -/
theorem executeWithFallback_classifies_failure (catalog agents : List AgentDefinition)
    (behavior : Behavior)
    (hfail : ∀ b ∈ agents, agentSucceeds behavior b = false)
    (hgen : ∀ g ∈ (getGenericAgent catalog).toList, agentSucceeds behavior g = false) :
    ∃ m, executeWithFallback catalog agents behavior = Except.error (raisedMessage m)
      ∧ (hasAuthMarker m = true → raisedMessage m = authFailureMessage m)
      ∧ (hasAuthMarker m = false → hasRateLimitMarker m = true →
          raisedMessage m = rateLimitFailureMessage m)
      ∧ (hasAuthMarker m = false → hasRateLimitMarker m = false →
          raisedMessage m = allFailedMessage m) := by
  have hmsg : ∀ m : String,
      (hasAuthMarker m = true → raisedMessage m = authFailureMessage m)
      ∧ (hasAuthMarker m = false → hasRateLimitMarker m = true →
          raisedMessage m = rateLimitFailureMessage m)
      ∧ (hasAuthMarker m = false → hasRateLimitMarker m = false →
          raisedMessage m = allFailedMessage m) := by
    intro m
    refine ⟨fun h1 => by simp [raisedMessage, h1],
      fun h1 h2 => by simp [raisedMessage, h1, h2],
      fun h1 h2 => by simp [raisedMessage, h1, h2]⟩
  rcases tryAgents_all_fail behavior agents none hfail with ⟨e, he⟩
  rcases hg : getGenericAgent catalog with _ | g
  · exact ⟨e.getD "None",
      by simp [executeWithFallback, executeWithFallbackCore, he, hg], hmsg _⟩
  · by_cases hmem : g ∈ agents
    · exact ⟨e.getD "None",
        by simp [executeWithFallback, executeWithFallbackCore, he, hg, hmem],
        hmsg _⟩
    · rcases executeAgent_error_of_fails (hgen g (by simp [hg])) with ⟨m, hm⟩
      exact ⟨m,
        by simp [executeWithFallback, executeWithFallbackCore, he, hg, hmem, hm],
        hmsg _⟩

/-- C5 witness: catalog `[agGeneric]`, candidates `[agFlaky]`, every
attempt raising, via `executeWithFallback_classifies_failure`. -/
theorem executeWithFallback_classifies_failure_witness :
    ∃ m, executeWithFallback [agGeneric] [agFlaky] behaviorFailAll
        = Except.error (raisedMessage m)
      ∧ (hasAuthMarker m = true → raisedMessage m = authFailureMessage m)
      ∧ (hasAuthMarker m = false → hasRateLimitMarker m = true →
          raisedMessage m = rateLimitFailureMessage m)
      ∧ (hasAuthMarker m = false → hasRateLimitMarker m = false →
          raisedMessage m = allFailedMessage m) :=
  executeWithFallback_classifies_failure [agGeneric] [agFlaky] behaviorFailAll
    (by decide) (by decide)

/-- C10: with an empty candidate list and no generic agent in the
catalog, `execute_with_fallback` consults the provider for no agent at
all (the result is the same for every `behavior`) and raises the
catch-all `AgentExecutionError` whose embedded underlying text is
`"None"` — `str(None)` — because no per-candidate error was captured. -/
theorem executeWithFallback_empty_no_generic (catalog : List AgentDefinition)
    (behavior : Behavior) (hgen : getGenericAgent catalog = none) :
    executeWithFallback catalog [] behavior
      = Except.error (allFailedMessage "None")
    ∧ allFailedMessage "None" = "All agents failed to execute.\nError: None" := by
  constructor
  · have h1 : raisedMessage "None" = allFailedMessage "None" := rfl
    simp [executeWithFallback, executeWithFallbackCore, tryAgents, hgen, h1]
  · rfl

/-- C10 witness: the empty catalog, with an arbitrary concrete provider
model, via `executeWithFallback_empty_no_generic`. -/
theorem executeWithFallback_empty_no_generic_witness :
    executeWithFallback [] [] behaviorFailAll
      = Except.error (allFailedMessage "None")
    ∧ allFailedMessage "None" = "All agents failed to execute.\nError: None" :=
  executeWithFallback_empty_no_generic [] behaviorFailAll rfl

/-- C6 counterexample: when the agents directory does not exist,
`_load_agents` raises `AgentDefinitionError` rather than completing, so
"catalog loading never raises" fails at that concrete input. -/
theorem loadAgents_missing_dir_raises :
    loadAgentsFromDir none = Except.error "Agents directory not found" := rfl

/-- C6 amended: for every existing agents directory, each on-disk
definition is parsed independently, a malformed definition is skipped
without aborting the rest, and loading completes without raising — the
result is exactly the well-formed definitions in directory order. -/
theorem loadAgents_skips_malformed (files : List AgentFile) :
    loadAgentsFromDir (some files)
      = Except.ok (files.filterMap (fun f => (loadAgent f).toOption)) := by
  rw [loadAgentsFromDir]
  congr 1
  induction files with
  | nil => rfl
  | cons f rest ih =>
      rw [loadLoop, List.filterMap_cons]
      rcases h : loadAgent f with m | a <;> simp [Except.toOption, ih]


